import Mathlib

/-!
Shallow embedding of `twitter_media_dl/mediadownloadclient.py` (the media
download pipeline of megatti/twitter-media-downloader) and proofs about it.

The embedding mirrors the Python module function by function:
`get_media`, `get_media_details`, `get_filename`, `download_file`,
`load_history`, `save_history`, `add_media_to_queue`,
`download_media_from_queue`.  Python exceptions are modelled with `Except`,
the file system of the history store with an ordered list of files (the order
models the OS directory-enumeration order that `glob.glob` reports; CPython's
glob does not sort its results), and the `asyncio.Queue` with the list of
values the producer put into it.
-/

namespace TMD

/-- Calendar timestamp carried on a tweet (`created_at`).  The Python code
stores it as a string and re-parses it with `dateutil.parser.parse` inside
`get_filename`; the embedding keeps the parsed, structured form, so that
parse step is the identity here. -/
structure DateTime where
  year : Nat
  month : Nat
  day : Nat
  hour : Nat
  minute : Nat
  second : Nat
deriving DecidableEq

/-- Zero-padded two-digit decimal field, as CPython `strftime` renders
`%m`, `%d`, `%H`, `%M`, `%S`. -/
def pad2 (n : Nat) : String :=
  if n < 10 then "0" ++ toString n else toString n

/-- Zero-padded four-digit decimal field, as CPython `strftime` renders `%Y`. -/
def pad4 (n : Nat) : String :=
  if n < 10 then "000" ++ toString n
  else if n < 100 then "00" ++ toString n
  else if n < 1000 then "0" ++ toString n
  else toString n

/-- `datetime.strftime("%Y-%m-%d-%H%M%S")`. -/
def strftime (d : DateTime) : String :=
  pad4 d.year ++ "-" ++ pad2 d.month ++ "-" ++ pad2 d.day ++ "-" ++
    pad2 d.hour ++ pad2 d.minute ++ pad2 d.second

/-- Word splitter behind `slugify`: scan the characters, accumulate maximal
runs of alphanumeric characters, drop everything else. -/
def slugWordsAux : List Char → List Char → List String
  | [], cur => if cur.isEmpty then [] else [String.mk cur.reverse]
  | c :: rest, cur =>
    if c.isAlphanum then slugWordsAux rest (c :: cur)
    else if cur.isEmpty then slugWordsAux rest []
    else String.mk cur.reverse :: slugWordsAux rest []

/-- `slugify.slugify`, restricted to its behaviour on ASCII input (the only
inputs exercised here): lowercase, split into runs of alphanumeric
characters, join the runs with "-". -/
def slugify (s : String) : String :=
  String.intercalate "-" (slugWordsAux (s.data.map Char.toLower) [])

/-- Python exceptions that the embedded code can raise. -/
inductive PyErr where
  | keyError (key : String)
  | unboundLocal (var : String)
deriving DecidableEq

/-- One entry of `media.video_info.variants`.  The `bitrate` attribute is only
ever read after the content-type test has passed (Python's short-circuit
`and`), matching real payloads where m3u8 variants carry no bitrate. -/
structure Variant where
  content_type : String
  bitrate : Int
  url : String
deriving DecidableEq

/-- One entry of `tweet.extended_entities.media`.  `video_info` stands for
`media.video_info.variants` (the intermediate `.variants` wrapper is
flattened away). -/
structure Media where
  type : String
  media_url_https : String
  video_info : List Variant
deriving DecidableEq

/-- A tweet as consumed by `get_media`: the `extended_entities.media`
attachment list may be absent (the `AttributeError` is swallowed), and the
`retweeted_status` / `quoted_status` links may each be absent likewise. -/
inductive Tweet where
  | mk (screen_name : String) (created_at : DateTime) (id : Nat)
       (extended_entities : Option (List Media))
       (retweeted_status : Option Tweet)
       (quoted_status : Option Tweet)

def Tweet.screen_name : Tweet → String
  | .mk sn _ _ _ _ _ => sn

def Tweet.created_at : Tweet → DateTime
  | .mk _ ca _ _ _ _ => ca

def Tweet.tid : Tweet → Nat
  | .mk _ _ i _ _ _ => i

def Tweet.extended_entities : Tweet → Option (List Media)
  | .mk _ _ _ ee _ _ => ee

def Tweet.retweeted_status : Tweet → Option Tweet
  | .mk _ _ _ _ rs _ => rs

def Tweet.quoted_status : Tweet → Option Tweet
  | .mk _ _ _ _ _ qs => qs

/-- An element of the `medias` list built by `get_media`:
`(tweet object, a media in that tweet, media_index)`. -/
abbrev MediaRec := Tweet × Media × Nat

/-- `get_media(tweet, medias=[], depth=1, max_depth=10)`: append the tweet's
own attachments (enumerated), then, while `depth < max_depth`, recurse into
the retweeted status and then the quoted status, passing the accumulator
through.  An absent attachment list or link contributes nothing (the
`AttributeError` handlers). -/
def get_media (t : Tweet) (medias : List MediaRec) (depth : Nat) (max_depth : Nat) :
    List MediaRec :=
  match t with
  | .mk sn ca ti ee rs qs =>
    let tw := Tweet.mk sn ca ti ee rs qs
    let medias := medias ++ (match ee with
      | some ms => ms.enum.map (fun p => (tw, p.2, p.1))
      | none => [])
    if depth < max_depth then
      let medias := match rs with
        | some rt => get_media rt medias (depth + 1) max_depth
        | none => medias
      match qs with
      | some q => get_media q medias (depth + 1) max_depth
      | none => medias
    else medias

/-- The records `get_media` collects from the attachments of `t` itself
(before any recursion). -/
def ownRecords (t : Tweet) : List MediaRec :=
  match t.extended_entities with
  | some ms => ms.enum.map (fun p => (t, p.2, p.1))
  | none => []

/-- Number of top-level media attachments of a tweet. -/
def attachmentCount (t : Tweet) : Nat :=
  ((t.extended_entities).getD []).length

/-- The records `get_media` contributes by recursing into the retweeted and
quoted statuses: one recursive call each, only while `depth < max_depth`. -/
def recContribution (t : Tweet) (depth max_depth : Nat) : List MediaRec :=
  if depth < max_depth then
    (match t.retweeted_status with
      | some rt => get_media rt [] (depth + 1) max_depth
      | none => []) ++
    (match t.quoted_status with
      | some q => get_media q [] (depth + 1) max_depth
      | none => [])
  else []

/-- The per-media dictionary built by `get_media_details`.  `url` is `none`
when the Python dict was built without a `"url"` key (a media type other
than photo / video / animated_gif). -/
structure MediaInfo where
  author : String
  date : DateTime
  id : Nat
  type : String
  index : Nat
  url : Option String
deriving DecidableEq

/-- The variant-scanning loop of `get_media_details`: starting from the
current value of the function-scoped `max_url` variable (and a freshly reset
`max_bitrate = -1`), fold over the variants; a variant updates the pair
exactly when its content type is "video/mp4" and its bitrate exceeds the
maximum so far.  Other content types (m3u8) are skipped. -/
def variantScan : List Variant → Int → Option String → Int × Option String
  | [], mb, mu => (mb, mu)
  | v :: rest, mb, mu =>
    if v.content_type = "video/mp4" ∧ v.bitrate > mb then
      variantScan rest v.bitrate (some v.url)
    else
      variantScan rest mb mu

/-- Build one `media_info_dict`.  `mu` is the function-scoped `max_url`
variable of `get_media_details`, which survives from one media entry to the
next because Python never resets it: a video/animated_gif entry whose
variants contain no mp4 silently reuses the previous value, and raises
`UnboundLocalError` only when it was never assigned at all. -/
def mediaInfoFor (t : Tweet) (m : Media) (i : Nat) (mu : Option String) :
    Except PyErr (MediaInfo × Option String) :=
  let base : MediaInfo :=
    { author := slugify t.screen_name, date := t.created_at, id := t.tid,
      type := m.type, index := i, url := none }
  if m.type = "photo" then
    .ok ({ base with url := some (m.media_url_https ++ ":orig") }, mu)
  else if m.type = "animated_gif" ∨ m.type = "video" then
    let r := variantScan m.video_info (-1) mu
    match r.2 with
    | some u => .ok ({ base with url := some u }, some u)
    | none => .error (.unboundLocal "max_url")
  else
    .ok (base, mu)

/-- The inner loop of `get_media_details` over the `medias` list of one base
tweet, threading the function-scoped `max_url`. -/
def detailsLoop : List MediaRec → Option String → Except PyErr (List MediaInfo × Option String)
  | [], mu => .ok ([], mu)
  | (t, m, i) :: rest, mu =>
    match mediaInfoFor t m i mu with
    | .error e => .error e
    | .ok (info, mu2) =>
      match detailsLoop rest mu2 with
      | .error e => .error e
      | .ok (infos, mu3) => .ok (info :: infos, mu3)

/-- The outer loop of `get_media_details` over `tweets`, still threading the
function-scoped `max_url` (its scope is the whole call). -/
def detailsTweets : List Tweet → Option String → Except PyErr (List MediaInfo × Option String)
  | [], mu => .ok ([], mu)
  | t :: rest, mu =>
    match detailsLoop (get_media t [] 1 10) mu with
    | .error e => .error e
    | .ok (infos, mu2) =>
      match detailsTweets rest mu2 with
      | .error e => .error e
      | .ok (infos2, mu3) => .ok (infos ++ infos2, mu3)

/-- `get_media_details(tweets)`. -/
def get_media_details (tweets : List Tweet) : Except PyErr (List MediaInfo) :=
  (detailsTweets tweets none).map Prod.fst

/-- Python `str.split` with a one-character separator: the accumulated chunk
is emitted at each separator; the result is never empty. -/
def splitChar (c : Char) : List Char → List Char → List String
  | [], cur => [String.mk cur.reverse]
  | x :: rest, cur =>
    if x = c then String.mk cur.reverse :: splitChar c rest []
    else splitChar c rest (x :: cur)

def pySplit (s : String) (c : Char) : List String :=
  splitChar c s.data []

/-- `get_filename(media_info)`.  `dateutil.parser.parse` on the stored
timestamp followed by `strftime("%Y-%m-%d-%H%M%S")` is embedded as
`strftime` on the structured timestamp.  The url is read (`[-1]` of the
"/"-split, then `[0]` of the ":"-split) before the type dispatch, so a
missing `"url"` key raises `KeyError` first; if no branch of the dispatch
matches, `return filename` raises `UnboundLocalError`. -/
def get_filename (media_info : MediaInfo) : Except PyErr String :=
  let date := strftime media_info.date
  let artist := media_info.author
  let index := media_info.index
  match media_info.url with
  | none => .error (.keyError "url")
  | some u =>
    let url_type := (pySplit ((pySplit u '/').getLastD "") ':').headD ""
    let id_ := media_info.id
    if media_info.type = "photo" then
      .ok ("img" ++ date ++ "_" ++ artist ++ "_" ++ toString index ++ "_" ++
        toString id_ ++ "_" ++ url_type)
    else if media_info.type = "video" then
      .ok ("video" ++ date ++ "_" ++ artist ++ "_" ++ toString id_ ++ ".mp4")
    else if media_info.type = "animated_gif" then
      .ok ("gif" ++ date ++ "_" ++ artist ++ "_" ++ toString id_ ++ ".mp4")
    else
      .error (.unboundLocal "filename")

/-- Outcome of one attempt of the retry loop in `download_file` (attempts are
numbered from 1, the value of `retry_count` during that iteration).
`success` means the GET succeeded (`response.ok`) and the body was streamed
to both files, after which the loop breaks; `notOk` means a response arrived
with a non-ok status, so nothing is written and there is no break; the
remaining constructors are the caught recoverable exceptions
(`FileNotFoundError`, `asyncio.TimeoutError`, `ClientConnectorError`,
`ClientPayloadError`), after which the loop retries. -/
inductive Attempt where
  | success
  | notOk
  | dirMissing
  | timeout
  | connError
  | payloadError
deriving DecidableEq

/-- The `while retry_count <= 5` loop of `download_file`, structurally
recursive on a fuel that over-approximates the remaining iterations (at most
6 happen from `retry_count = 0`).  Returns whether a successful write
happened (the loop exited via `break`) and the final `retry_count`. -/
def downloadLoop (env : Nat → Attempt) : Nat → Nat → Bool × Nat
  | 0, retry_count => (false, retry_count)
  | fuel + 1, retry_count =>
    if retry_count ≤ 5 then
      match env (retry_count + 1) with
      | .success => (true, retry_count + 1)
      | _ => downloadLoop env fuel (retry_count + 1)
    else (false, retry_count)

/-- `download_file` retry behaviour: run the attempt loop from
`retry_count = 0` (6 units of fuel cover every reachable iteration, since
the guard `retry_count <= 5` stops the loop after the sixth attempt).
The function itself returns the two destination paths in all cases; whether
any attempt ever succeeded is not reported to the caller, which is why the
first component (the break flag) is the interesting observable. -/
def download_file (env : Nat → Attempt) : Bool × Nat :=
  downloadLoop env 6 0

/-- Consumer-side fields of `MediaDownloadClient`.  `media_urls` models
`self.media_urls` (a set of strings; the list models it up to order and
multiplicity) and `media_count` models `self.media_count`. -/
structure ConsumerState where
  media_urls : List String
  media_count : Nat
deriving DecidableEq

/-- The body of `download_media_from_queue` for one dequeued record:
`get_filename` (which can raise), then `await download_file(...)` whose
outcome is ignored, then `self.media_urls.add(url)` and
`self.media_count += 1`, both unconditionally.  `List.insert` models
`set.add`. -/
def consumeRecord (env : Nat → Attempt) (st : ConsumerState) (info : MediaInfo) :
    Except PyErr ConsumerState :=
  match get_filename info with
  | .error e => .error e
  | .ok _filename =>
    match info.url with
    | none => .error (.keyError "url")
    | some u =>
      let _dl := download_file env
      .ok { media_urls := st.media_urls.insert u,
            media_count := st.media_count + 1 }

/-- Result of running the consumer against the queue contents. -/
inductive ConsumerOutcome where
  | finished (st : ConsumerState) (rest : List (Option MediaInfo))
  | blocked (st : ConsumerState)
  | crashed (e : PyErr)
deriving DecidableEq

/-- `download_media_from_queue`, run against the queue contents given as a
list: loop on `get()`; dequeuing `None` breaks out, leaving the remainder of
the queue untouched and putting nothing back; an exhausted list means the
coroutine is suspended forever on `get()` (`blocked`); an uncaught exception
kills the task (`crashed`). -/
def download_media_from_queue (env : Nat → Attempt) :
    List (Option MediaInfo) → ConsumerState → ConsumerOutcome
  | [], st => .blocked st
  | none :: rest, st => .finished st rest
  | some info :: rest, st =>
    match consumeRecord env st info with
    | .error e => .crashed e
    | .ok st2 => download_media_from_queue env rest st2

/-- Producer-side fields of `MediaDownloadClient`: the in-memory seen set
`self.media_urls` (which the producer reads but never writes), the duplicate
counter `self.dupes`, the processed-tweet counter `self.tweet_count`, and
the trace of values put into `self.media_queue` in order. -/
structure ProducerState where
  media_urls : List String
  dupes : Nat
  tweet_count : Nat
  queue : List (Option MediaInfo)
deriving DecidableEq

/-- Producer inner-loop body for one record: look up
`media_details["url"]` (KeyError if the dict has no url), count a dupe and
skip if it is in `self.media_urls`, otherwise `await self.media_queue.put`. -/
def enqueueRecord (st : ProducerState) (info : MediaInfo) : Except PyErr ProducerState :=
  match info.url with
  | none => .error (.keyError "url")
  | some u =>
    if u ∈ st.media_urls then
      .ok { st with dupes := st.dupes + 1 }
    else
      .ok { st with queue := st.queue ++ [some info] }

/-- The producer's loop over one page's `media_details_list`. -/
def enqueueLoop : ProducerState → List MediaInfo → Except PyErr ProducerState
  | st, [] => .ok st
  | st, info :: rest =>
    match enqueueRecord st info with
    | .error e => .error e
    | .ok st2 => enqueueLoop st2 rest

/-- One iteration of the `async for tweets_list in responses` body of
`add_media_to_queue`: extract details, enqueue them, then bump
`self.tweet_count` by the page length. -/
def producePage (st : ProducerState) (page : List Tweet) : Except PyErr ProducerState :=
  match get_media_details page with
  | .error e => .error e
  | .ok infos =>
    match enqueueLoop st infos with
    | .error e => .error e
    | .ok st2 => .ok { st2 with tweet_count := st2.tweet_count + page.length }

/-- `add_media_to_queue(count, max_tweets)`, with the paginated post source
given as the list of pages it would yield.  The loop ends when the pages are
exhausted or when `tweet_count >= max_tweets` after a page; in both cases a
single `None` sentinel is then put into the queue.  An uncaught exception
propagates and no sentinel is enqueued. -/
def add_media_to_queue : List (List Tweet) → Nat → ProducerState → Except PyErr ProducerState
  | [], _, st => .ok { st with queue := st.queue ++ [none] }
  | page :: rest, max_tweets, st =>
    match producePage st page with
    | .error e => .error e
    | .ok st2 =>
      if st2.tweet_count ≥ max_tweets then
        .ok { st2 with queue := st2.queue ++ [none] }
      else
        add_media_to_queue rest max_tweets st2

/-- A file of the history directory: basename and character content.  The
list order of a directory models the OS enumeration order that `glob.glob`
reports (CPython's glob does not sort its results). -/
structure HFile where
  name : String
  content : List Char
deriving DecidableEq

/-- First list is an initial segment of the second. -/
def beginsWith : List Char → List Char → Bool
  | [], _ => true
  | _ :: _, [] => false
  | p :: ps, c :: cs => p = c && beginsWith ps cs

/-- First list is a final segment of the second. -/
def finishesWith (suf cs : List Char) : Bool :=
  beginsWith suf.reverse cs.reverse

/-- `fnmatch` of a basename against the glob pattern `pre + "*" + ".txt"`:
the star may be empty and matches arbitrary characters of a basename. -/
def globMatch (pre : String) (name : String) : Bool :=
  beginsWith pre.data name.data && finishesWith ".txt".data name.data &&
    decide (pre.length + 4 ≤ name.length)

/-- Pattern used by `load_history`: `f"(tweet_source)_urls*.txt"`. -/
def matchesLoadGlob (src name : String) : Bool :=
  globMatch (src ++ "_urls") name

/-- Pattern used by `save_history`'s backup rotation:
`f"(tweet_source)_urls-*.txt"`. -/
def matchesSaveGlob (src name : String) : Bool :=
  globMatch (src ++ "_urls-") name

/-- Python `str.strip()` on ASCII whitespace. -/
def pyStrip (s : String) : String :=
  String.mk (((s.data.dropWhile Char.isWhitespace).reverse.dropWhile Char.isWhitespace).reverse)

/-- `file.readlines()` followed by dropping each line's trailing newline:
split the content at newline characters, with no empty trailing entry for
newline-terminated content (readlines of `"a\nb\n"` is `["a\n", "b\n"]`). -/
def readLinesAux : List Char → List Char → List String
  | [], cur => if cur.isEmpty then [] else [String.mk cur.reverse]
  | c :: rest, cur =>
    if c = '\n' then String.mk cur.reverse :: readLinesAux rest []
    else readLinesAux rest (c :: cur)

def readLines (content : List Char) : List String :=
  readLinesAux content []

/-- `load_history(search_folder)`: take the last glob match in enumeration
order (`glob.glob(...)[-1]` — the code does not sort the matches), and
update the url set with the stripped lines of that file.  No match raises
`IndexError`, which is caught: a warning is printed and the set is left
unchanged. -/
def load_history (src : String) (dir : List HFile) (media_urls : List String) : List String :=
  match (dir.filter (fun f => matchesLoadGlob src f.name)).getLast? with
  | none => media_urls
  | some logfile => media_urls ++ (readLines logfile.content).map pyStrip

/-- `save_history()`: move every `(src)_urls-*.txt` match out of the
directory into the backup subfolder (so it leaves this directory's listing),
then create `(src)_urls-(now).txt` containing each url of the set followed
by a newline, in the set's iteration order.  Returns the new directory
listing and the new file's name. -/
def save_history (src now : String) (dir : List HFile) (media_urls : List String) :
    List HFile × String :=
  let kept := dir.filter (fun f => !(matchesSaveGlob src f.name))
  let newName := src ++ "_urls-" ++ now ++ ".txt"
  let content := (media_urls.map (fun u => u.data ++ ['\n'])).flatten
  (kept ++ [⟨newName, content⟩], newName)

/-- A record the consumer can process without raising: it has a url and one
of the three media types `get_filename` handles. -/
def wellFormedInfo (info : MediaInfo) : Bool :=
  info.url.isSome &&
    (info.type == "photo" || info.type == "video" || info.type == "animated_gif")

/-! Concrete fixtures used by witnesses, counterexamples and evaluations. -/

/-- An mp4 encoded variant. -/
def mp4Variant (br : Int) (u : String) : Variant :=
  ⟨"video/mp4", br, u⟩

/-- An m3u8 playlist variant (the content type Twitter uses for them). -/
def m3u8Variant (br : Int) (u : String) : Variant :=
  ⟨"application/x-mpegURL", br, u⟩

/-- A tweet carrying two video attachments: the first has an mp4 variant, the
second has only an m3u8 variant (no mp4). -/
def staleTweet : Tweet :=
  .mk "someuser" ⟨2021, 3, 17, 2, 21, 0⟩ 77
    (some [⟨"video", "https://pbs.twimg.com/thumb1.jpg", [mp4Variant 832000 "https://video.example/ok.mp4"]⟩,
           ⟨"video", "https://pbs.twimg.com/thumb2.jpg", [m3u8Variant 0 "https://video.example/playlist.m3u8"]⟩])
    none none

/-- A tweet whose single video attachment has only an m3u8 variant, with no
earlier video in the same call. -/
def loneBadTweet : Tweet :=
  .mk "someuser" ⟨2021, 3, 17, 2, 21, 0⟩ 78
    (some [⟨"video", "https://pbs.twimg.com/thumb3.jpg", [m3u8Variant 0 "https://video.example/playlist.m3u8"]⟩])
    none none

/-- The C4 scenario: one video attachment with two mp4 variants of bitrates
832000 and 2176000 and one m3u8 variant. -/
def c4Tweet (u1 u2 u3 : String) (b3 : Int) : Tweet :=
  .mk "megateyourbagel" ⟨2021, 3, 17, 2, 21, 0⟩ 1372010047056711680
    (some [⟨"video", "https://pbs.twimg.com/thumb4.jpg",
            [mp4Variant 832000 u1, mp4Variant 2176000 u2, m3u8Variant b3 u3]⟩])
    none none

/-- The C5 scenario: one photo attachment whose url ends in `ABC123.jpg`,
posted 2021-03-21T04:08:55 by handle `Sad-istfied`. -/
def c5Tweet (pid : Nat) : Tweet :=
  .mk "Sad-istfied" ⟨2021, 3, 21, 4, 8, 55⟩ pid
    (some [⟨"photo", "https://pbs.twimg.com/media/ABC123.jpg", []⟩]) none none

/-- An attempt environment in which every attempt times out, so the retry
budget is exhausted with no successful write. -/
def envFail : Nat → Attempt := fun _ => .timeout

/-- A well-formed photo record, as the producer would enqueue it. -/
def samplePhotoInfo : MediaInfo :=
  ⟨"sad-istfied", ⟨2021, 3, 21, 4, 8, 55⟩, 1373486756306165763, "photo", 0,
   some "https://pbs.twimg.com/media/ABC123.jpg:orig"⟩

/-- A second well-formed record with a different url. -/
def sampleGifInfo : MediaInfo :=
  ⟨"dnoodels", ⟨2021, 3, 16, 21, 5, 59⟩, 1371930768306540546, "animated_gif", 0,
   some "https://video.twimg.com/tweet_video/EwoThfmWgAs-FAz.mp4"⟩

/-- A history directory whose OS enumeration order lists the newer-named
history file before the older-named one (CPython's glob does not sort, so
this order is possible). -/
def unsortedDir : List HFile :=
  [⟨"likes_urls-2022-01-01-000000.txt", "new\n".data⟩,
   ⟨"likes_urls-2021-01-01-000000.txt", "old\n".data⟩]

/-! Theorems. -/

/-- The code's accumulator-passing recursion, restated compositionally:
`get_media` yields the accumulator, then the tweet's own records, then the
recursive contribution of the retweeted and quoted statuses. -/
theorem get_media_structure_aux (n : Nat) :
    ∀ (t : Tweet), sizeOf t ≤ n → ∀ acc depth max_depth,
      get_media t acc depth max_depth =
        acc ++ ownRecords t ++ recContribution t depth max_depth := by
  induction n with
  | zero =>
    intro t h
    cases t with
    | mk sn ca ti ee rs qs => simp at h
  | succ n ih =>
    intro t h acc depth max_depth
    cases t with
    | mk sn ca ti ee rs qs =>
      have hsz : sizeOf rs + sizeOf qs ≤ n := by
        simp at h; omega
      by_cases hdm : depth < max_depth
      · cases rs with
        | none =>
          cases qs with
          | none =>
            simp [get_media, ownRecords, recContribution, Tweet.extended_entities,
              Tweet.retweeted_status, Tweet.quoted_status, hdm]
          | some q =>
            have hq : sizeOf q ≤ n := by simp at hsz; omega
            simp [get_media, ownRecords, recContribution, Tweet.extended_entities,
              Tweet.retweeted_status, Tweet.quoted_status, hdm, ih q hq]
        | some rt =>
          have hr : sizeOf rt ≤ n := by simp at hsz; omega
          cases qs with
          | none =>
            simp [get_media, ownRecords, recContribution, Tweet.extended_entities,
              Tweet.retweeted_status, Tweet.quoted_status, hdm, ih rt hr]
          | some q =>
            have hq : sizeOf q ≤ n := by simp at hsz; omega
            simp [get_media, ownRecords, recContribution, Tweet.extended_entities,
              Tweet.retweeted_status, Tweet.quoted_status, hdm, ih rt hr, ih q hq]
      · cases rs <;> cases qs <;>
          simp [get_media, ownRecords, recContribution, Tweet.extended_entities,
            Tweet.retweeted_status, Tweet.quoted_status, hdm]

theorem get_media_structure (t : Tweet) (acc : List MediaRec) (depth max_depth : Nat) :
    get_media t acc depth max_depth =
      acc ++ ownRecords t ++ recContribution t depth max_depth :=
  get_media_structure_aux (sizeOf t) t le_rfl acc depth max_depth

/-- C3: for every post with N top-level media attachments, `get_media` (called
as `get_media_details` calls it: empty accumulator, depth 1, bound 10)
returns exactly the N records of that post — each tagged with the post itself
and with the distinct indices 0, ..., N-1 in order — followed by the records
contributed by recursing into the retweeted and the quoted status; at the
depth bound (depth 10 of 10) no recursion happens at all. -/
theorem extract_media_shape (t : Tweet) :
    get_media t [] 1 10 = ownRecords t ++ recContribution t 1 10 ∧
    (ownRecords t).length = attachmentCount t ∧
    (ownRecords t).map (fun r => r.2.2) = List.range (attachmentCount t) ∧
    (ownRecords t).map (fun r => r.1) = List.replicate (attachmentCount t) t ∧
    ∀ acc, get_media t acc 10 10 = acc ++ ownRecords t := by
  refine ⟨by simpa using get_media_structure t [] 1 10, ?_, ?_, ?_, ?_⟩
  · cases hee : t.extended_entities with
    | none => simp [ownRecords, attachmentCount, hee]
    | some ms => simp [ownRecords, attachmentCount, hee]
  · cases hee : t.extended_entities with
    | none => simp [ownRecords, attachmentCount, hee]
    | some ms =>
      simp only [ownRecords, attachmentCount, hee, Option.getD_some, List.map_map]
      exact List.enum_map_fst ms
  · cases hee : t.extended_entities with
    | none => simp [ownRecords, attachmentCount, hee]
    | some ms =>
      rw [List.eq_replicate_iff]
      constructor
      · simp [ownRecords, attachmentCount, hee]
      · intro b hb
        simp only [ownRecords, hee, List.map_map, List.mem_map, Function.comp] at hb
        obtain ⟨p, _, hp⟩ := hb
        exact hp.symm
  · intro acc
    rw [get_media_structure]
    simp [recContribution]

/-- C4: for a video entry whose variants are two mp4 variants with bitrates
832000 and 2176000 plus one m3u8 variant (any bitrate value), the extracted
record's url is the 2176000-bitrate mp4 variant's url: the scan selects the
"video/mp4" variant of maximum bitrate and never looks at the m3u8 one. -/
theorem mp4_max_bitrate_selected (u1 u2 u3 : String) (b3 : Int) :
    get_media_details [c4Tweet u1 u2 u3 b3] =
      .ok [⟨"megateyourbagel", ⟨2021, 3, 17, 2, 21, 0⟩, 1372010047056711680,
            "video", 0, some u2⟩] := rfl

/-- C2: evaluation at the failing input.  In `get_media_details` the variable
`max_url` is function-scoped, so a video entry with no mp4 variant silently
inherits the url selected for an earlier video entry of the same call: on
`staleTweet` (first video has an mp4, second has only an m3u8) the call
returns ok and gives BOTH records the first video's url, instead of
signalling an error for the second.  The error (`UnboundLocalError`) only
happens when no earlier entry ever assigned `max_url`, as on `loneBadTweet`. -/
theorem stale_max_url_eval :
    get_media_details [staleTweet] =
      .ok [⟨"someuser", ⟨2021, 3, 17, 2, 21, 0⟩, 77, "video", 0,
            some "https://video.example/ok.mp4"⟩,
           ⟨"someuser", ⟨2021, 3, 17, 2, 21, 0⟩, 77, "video", 1,
            some "https://video.example/ok.mp4"⟩] ∧
    get_media_details [loneBadTweet] = .error (.unboundLocal "max_url") :=
  ⟨rfl, rfl⟩

/-- C5: a post with one photo entry whose url ends in `ABC123.jpg`, posted
2021-03-21T04:08:55 by handle `Sad-istfied`, yields the record extraction
(slug-normalizing the handle and appending the `:orig` quality suffix) and
then exactly the filename `img2021-03-21-040855_sad-istfied_0_<postId>_ABC123.jpg`
(the basename's `:orig` suffix stripped again by the ":"-split). -/
theorem photo_filename_scenario (pid : Nat) :
    ∃ info, get_media_details [c5Tweet pid] = .ok [info] ∧
      get_filename info =
        .ok ("img2021-03-21-040855_sad-istfied_0_" ++ toString pid ++ "_ABC123.jpg") := by
  refine ⟨⟨"sad-istfied", ⟨2021, 3, 21, 4, 8, 55⟩, pid, "photo", 0,
           some "https://pbs.twimg.com/media/ABC123.jpg:orig"⟩, rfl, ?_⟩
  have h1 : get_filename ⟨"sad-istfied", ⟨2021, 3, 21, 4, 8, 55⟩, pid, "photo", 0,
      some "https://pbs.twimg.com/media/ABC123.jpg:orig"⟩ =
      .ok ("img" ++ strftime ⟨2021, 3, 21, 4, 8, 55⟩ ++ "_" ++ "sad-istfied" ++ "_" ++
        toString 0 ++ "_" ++ toString pid ++ "_" ++
        (pySplit ((pySplit "https://pbs.twimg.com/media/ABC123.jpg:orig" '/').getLastD "")
          ':').headD "") := rfl
  have hurl : (pySplit ((pySplit "https://pbs.twimg.com/media/ABC123.jpg:orig" '/').getLastD "")
      ':').headD "" = "ABC123.jpg" := by decide
  have hd : strftime ⟨2021, 3, 21, 4, 8, 55⟩ = "2021-03-21-040855" := by decide
  have h0 : toString (0 : Nat) = "0" := by decide
  rw [h1, hurl, hd, h0]
  simp [String.append_assoc]

/-- C10: for every record that does carry a url, `get_filename` returns a
filename exactly when the record's type is one of "photo", "video",
"animated_gif"; for any other type no branch assigns `filename` and the
function raises `UnboundLocalError` instead of returning a string. -/
theorem get_filename_domain (info : MediaInfo) (u : String) (hu : info.url = some u) :
    ((∃ s, get_filename info = .ok s) ↔
      (info.type = "photo" ∨ info.type = "video" ∨ info.type = "animated_gif")) ∧
    (info.type ≠ "photo" → info.type ≠ "video" → info.type ≠ "animated_gif" →
      get_filename info = .error (.unboundLocal "filename")) := by
  constructor
  · constructor
    · rintro ⟨s, hs⟩
      by_contra hc
      push_neg at hc
      obtain ⟨h1, h2, h3⟩ := hc
      simp [get_filename, hu, h1, h2, h3] at hs
    · rintro (h | h | h)
      · exact ⟨"img" ++ strftime info.date ++ "_" ++ info.author ++ "_" ++
          toString info.index ++ "_" ++ toString info.id ++ "_" ++
          (pySplit ((pySplit u '/').getLastD "") ':').headD "",
          by simp [get_filename, hu, h]⟩
      · exact ⟨"video" ++ strftime info.date ++ "_" ++ info.author ++ "_" ++
          toString info.id ++ ".mp4", by simp [get_filename, hu, h]⟩
      · exact ⟨"gif" ++ strftime info.date ++ "_" ++ info.author ++ "_" ++
          toString info.id ++ ".mp4", by simp [get_filename, hu, h]⟩
  · intro h1 h2 h3
    simp [get_filename, hu, h1, h2, h3]

/-- C10 witness: a record with type "sticker" (and a url) makes
`get_filename` raise `UnboundLocalError` rather than return a string. -/
theorem get_filename_domain_witness :
    get_filename ⟨"a", ⟨2021, 1, 1, 0, 0, 0⟩, 1, "sticker", 0, some "u"⟩ =
      .error (.unboundLocal "filename") :=
  (get_filename_domain ⟨"a", ⟨2021, 1, 1, 0, 0, 0⟩, 1, "sticker", 0, some "u"⟩ "u" rfl).2
    (by decide) (by decide) (by decide)

/-- Helper: a well-formed record (url present, type among the three handled
ones) is consumed without raising, and the consumer state afterwards has the
url inserted and the count bumped — with no condition at all on what the
download attempts did. -/
theorem consumeRecord_spec (env : Nat → Attempt) (st : ConsumerState) (info : MediaInfo)
    (h : wellFormedInfo info = true) :
    ∃ u, info.url = some u ∧
      consumeRecord env st info =
        .ok ⟨st.media_urls.insert u, st.media_count + 1⟩ := by
  obtain ⟨u, hu⟩ : ∃ u, info.url = some u := by
    cases h2 : info.url with
    | none => simp [wellFormedInfo, h2] at h
    | some u => exact ⟨u, rfl⟩
  refine ⟨u, hu, ?_⟩
  have htype : (info.type = "photo" ∨ info.type = "video") ∨ info.type = "animated_gif" := by
    simpa [wellFormedInfo, hu] using h
  rcases htype with (h1 | h1) | h1 <;> simp [consumeRecord, get_filename, hu, h1]

/-- C1 (amended): for every record dequeued by the consumer, after
`download_file` returns — whether or not any of its attempts succeeded — the
record's sourceUrl is added to the in-memory history set and the
downloaded-count counter is incremented; in particular a record whose
attempts were all exhausted without a successful write is still committed to
history. -/
theorem consume_commits_unconditionally (env : Nat → Attempt) (st : ConsumerState)
    (info : MediaInfo) (h : wellFormedInfo info = true) :
    ∃ u st2, info.url = some u ∧ consumeRecord env st info = .ok st2 ∧
      u ∈ st2.media_urls ∧ st2.media_count = st.media_count + 1 := by
  obtain ⟨u, hu, heq⟩ := consumeRecord_spec env st info h
  exact ⟨u, ⟨st.media_urls.insert u, st.media_count + 1⟩, hu, heq,
    List.mem_insert_self u st.media_urls, rfl⟩

/-- C1 witness: the amended statement at a concrete record and the
all-attempts-fail environment. -/
theorem consume_commits_unconditionally_witness :
    ∃ u st2, samplePhotoInfo.url = some u ∧
      consumeRecord envFail ⟨[], 0⟩ samplePhotoInfo = .ok st2 ∧
      u ∈ st2.media_urls ∧ st2.media_count = 0 + 1 :=
  consume_commits_unconditionally envFail ⟨[], 0⟩ samplePhotoInfo (by decide)

/-- C1 counterexample: with every attempt timing out, the retry budget of
`download_file` is exhausted and no write ever succeeds (the break flag is
false after `retry_count` reached 6), yet consuming that record still
commits its url to the history set and still increments the
downloaded-count — refuting "added ... only when the download succeeded". -/
theorem consume_commits_on_failure :
    (download_file envFail).1 = false ∧
    consumeRecord envFail ⟨[], 0⟩ samplePhotoInfo =
      .ok ⟨["https://pbs.twimg.com/media/ABC123.jpg:orig"], 1⟩ :=
  ⟨rfl, rfl⟩

/-- C8: for every record carrying a url, the producer drops it and increments
the duplicate counter (leaving the queue and the seen set unchanged) exactly
when the url is already in the seen set; otherwise it enqueues the record at
the back of the queue, leaving the duplicate counter unchanged. -/
theorem producer_dedup (st : ProducerState) (info : MediaInfo) (u : String)
    (hu : info.url = some u) :
    (u ∈ st.media_urls →
      ∃ st2, enqueueRecord st info = .ok st2 ∧ st2.queue = st.queue ∧
        st2.dupes = st.dupes + 1 ∧ st2.media_urls = st.media_urls) ∧
    (u ∉ st.media_urls →
      ∃ st2, enqueueRecord st info = .ok st2 ∧
        st2.queue = st.queue ++ [some info] ∧ st2.dupes = st.dupes) := by
  constructor
  · intro hmem
    refine ⟨{ st with dupes := st.dupes + 1 }, ?_, rfl, rfl, rfl⟩
    simp [enqueueRecord, hu, hmem]
  · intro hmem
    refine ⟨{ st with queue := st.queue ++ [some info] }, ?_, rfl, rfl⟩
    simp [enqueueRecord, hu, hmem]

/-- C8 witness: both branches at concrete states — the record's url already
seen (dropped, dupe counted) and not seen (enqueued). -/
theorem producer_dedup_witness :
    (∃ st2, enqueueRecord ⟨["https://pbs.twimg.com/media/ABC123.jpg:orig"], 0, 0, []⟩
        samplePhotoInfo = .ok st2 ∧ st2.queue = [] ∧ st2.dupes = 0 + 1 ∧
        st2.media_urls = ["https://pbs.twimg.com/media/ABC123.jpg:orig"]) ∧
    (∃ st2, enqueueRecord ⟨[], 0, 0, []⟩ samplePhotoInfo = .ok st2 ∧
        st2.queue = [] ++ [some samplePhotoInfo] ∧ st2.dupes = 0) :=
  ⟨(producer_dedup ⟨["https://pbs.twimg.com/media/ABC123.jpg:orig"], 0, 0, []⟩
      samplePhotoInfo "https://pbs.twimg.com/media/ABC123.jpg:orig" rfl).1 (by decide),
   (producer_dedup ⟨[], 0, 0, []⟩
      samplePhotoInfo "https://pbs.twimg.com/media/ABC123.jpg:orig" rfl).2 (by decide)⟩

/-- Helper: one producer step extends the queue by at most one `some` record
and never puts a `none`. -/
theorem enqueueRecord_queue_ext (st : ProducerState) (info : MediaInfo) (stm : ProducerState)
    (h : enqueueRecord st info = .ok stm) :
    ∃ ext : List MediaInfo, stm.queue = st.queue ++ ext.map some := by
  unfold enqueueRecord at h
  cases hu : info.url with
  | none => rw [hu] at h; cases h
  | some u =>
    rw [hu] at h
    by_cases hmem : u ∈ st.media_urls
    · simp only [if_pos hmem, Except.ok.injEq] at h
      exact ⟨[], by simp [← h]⟩
    · simp only [if_neg hmem, Except.ok.injEq] at h
      exact ⟨[info], by simp [← h]⟩

/-- Helper: the producer's per-page record loop only appends `some` records
to the queue. -/
theorem enqueueLoop_queue_ext :
    ∀ (infos : List MediaInfo) (st st2 : ProducerState),
      enqueueLoop st infos = .ok st2 →
      ∃ ext : List MediaInfo, st2.queue = st.queue ++ ext.map some := by
  intro infos
  induction infos with
  | nil =>
    intro st st2 h
    simp only [enqueueLoop, Except.ok.injEq] at h
    exact ⟨[], by simp [← h]⟩
  | cons info rest ih =>
    intro st st2 h
    simp only [enqueueLoop] at h
    cases he : enqueueRecord st info with
    | error e => rw [he] at h; cases h
    | ok stm =>
      rw [he] at h
      obtain ⟨ext0, h0⟩ := enqueueRecord_queue_ext st info stm he
      obtain ⟨ext1, h1⟩ := ih stm st2 h
      exact ⟨ext0 ++ ext1, by simp [h1, h0, List.append_assoc]⟩

/-- Helper: one page of the producer only appends `some` records. -/
theorem producePage_queue_ext (st : ProducerState) (page : List Tweet) (st2 : ProducerState)
    (h : producePage st page = .ok st2) :
    ∃ ext : List MediaInfo, st2.queue = st.queue ++ ext.map some := by
  unfold producePage at h
  cases hd : get_media_details page with
  | error e => rw [hd] at h; cases h
  | ok infos =>
    rw [hd] at h
    dsimp only at h
    cases hl : enqueueLoop st infos with
    | error e => rw [hl] at h; cases h
    | ok stm =>
      rw [hl] at h
      dsimp only at h
      simp only [Except.ok.injEq] at h
      obtain ⟨ext, hext⟩ := enqueueLoop_queue_ext infos st stm hl
      exact ⟨ext, by rw [← h]; simpa using hext⟩

/-- Helper: a completed producer run leaves the queue it started with,
extended by zero or more `some` records and then exactly one final `none`. -/
theorem add_media_queue_shape :
    ∀ (pages : List (List Tweet)) (max_tweets : Nat) (st st2 : ProducerState),
      add_media_to_queue pages max_tweets st = .ok st2 →
      ∃ ext : List MediaInfo, st2.queue = st.queue ++ ext.map some ++ [none] := by
  intro pages
  induction pages with
  | nil =>
    intro mt st st2 h
    simp only [add_media_to_queue, Except.ok.injEq] at h
    exact ⟨[], by simp [← h]⟩
  | cons page rest ih =>
    intro mt st st2 h
    simp only [add_media_to_queue] at h
    cases hp : producePage st page with
    | error e => rw [hp] at h; cases h
    | ok stm =>
      rw [hp] at h
      obtain ⟨ext0, h0⟩ := producePage_queue_ext st page stm hp
      by_cases hc : stm.tweet_count ≥ mt
      · simp only [if_pos hc, Except.ok.injEq] at h
        exact ⟨ext0, by simp [← h, h0]⟩
      · simp only [if_neg hc] at h
        obtain ⟨ext1, h1⟩ := ih mt stm st2 h
        exact ⟨ext0 ++ ext1, by simp [h1, h0, List.append_assoc]⟩

/-- Helper: the consumer processes any number of well-formed records and then
stops on the sentinel, leaving everything after it in the queue. -/
theorem consumer_runs_to_sentinel (env : Nat → Attempt) :
    ∀ (recs : List MediaInfo), recs.all wellFormedInfo = true →
      ∀ (rest : List (Option MediaInfo)) (cst : ConsumerState),
        ∃ stf, download_media_from_queue env (recs.map some ++ none :: rest) cst =
          .finished stf rest := by
  intro recs
  induction recs with
  | nil =>
    intro _ rest cst
    exact ⟨cst, rfl⟩
  | cons info recs2 ih =>
    intro hall rest cst
    rw [List.all_cons, Bool.and_eq_true] at hall
    obtain ⟨u, _, heq⟩ := consumeRecord_spec env cst info hall.1
    simp only [List.map_cons, List.cons_append, download_media_from_queue, heq]
    exact ih hall.2 rest _

/-- C9: a producer run started with a fresh (empty) queue that completes
normally — the pages were exhausted or max_tweets was reached — leaves a
queue trace consisting of `some`-records followed by exactly one `None`
sentinel in the last position (its None-count is 1 and nothing follows it);
and the consumer, dequeuing that sentinel after any number of well-formed
records, finishes exactly there: it puts nothing back into the queue and the
entries after the sentinel are returned un-dequeued. -/
theorem sentinel_protocol (pages : List (List Tweet)) (max_tweets : Nat)
    (urls : List String) (d tc : Nat) (st2 : ProducerState) (env : Nat → Attempt)
    (recs : List MediaInfo) (rest : List (Option MediaInfo)) (cst : ConsumerState) :
    (add_media_to_queue pages max_tweets ⟨urls, d, tc, []⟩ = .ok st2 →
      ∃ l : List MediaInfo, st2.queue = l.map some ++ [none] ∧
        st2.queue.countP (fun q => q.isNone) = 1 ∧
        st2.queue.getLast? = some none) ∧
    (recs.all wellFormedInfo = true →
      ∃ stf, download_media_from_queue env (recs.map some ++ none :: rest) cst =
        .finished stf rest) := by
  constructor
  · intro h
    obtain ⟨l, hl⟩ := add_media_queue_shape pages max_tweets _ st2 h
    simp only [List.nil_append] at hl
    refine ⟨l, hl, ?_, ?_⟩
    · rw [hl]
      simp [List.countP_append, List.countP_eq_zero]
    · rw [hl, List.getLast?_concat]
  · exact fun hall => consumer_runs_to_sentinel env recs hall rest cst

/-- C9 witness: a one-page empty run produces the queue `[none]` with its
sentinel properties, and the consumer of `[some record, none, some record]`
finishes at the sentinel leaving the trailing record in place. -/
theorem sentinel_protocol_witness :
    (∃ l : List MediaInfo,
      (⟨[], 0, 0, [none]⟩ : ProducerState).queue = l.map some ++ [none] ∧
      (⟨[], 0, 0, [none]⟩ : ProducerState).queue.countP (fun q => q.isNone) = 1 ∧
      (⟨[], 0, 0, [none]⟩ : ProducerState).queue.getLast? = some none) ∧
    (∃ stf, download_media_from_queue envFail
        ([samplePhotoInfo].map some ++ none :: [some sampleGifInfo]) ⟨[], 0⟩ =
      .finished stf [some sampleGifInfo]) :=
  ⟨(sentinel_protocol [[]] 4000 [] 0 0 ⟨[], 0, 0, [none]⟩ envFail
      [samplePhotoInfo] [some sampleGifInfo] ⟨[], 0⟩).1 rfl,
   (sentinel_protocol [[]] 4000 [] 0 0 ⟨[], 0, 0, [none]⟩ envFail
      [samplePhotoInfo] [some sampleGifInfo] ⟨[], 0⟩).2 (by decide)⟩

/-- Helper: every list is an initial segment of itself extended. -/
theorem beginsWith_append_self (p q : List Char) : beginsWith p (p ++ q) = true := by
  induction p with
  | nil => rfl
  | cons c cs ih => simp [beginsWith, ih]

/-- Helper: reading lines walks past one newline-terminated chunk at a time
(provided the chunk itself contains no newline). -/
theorem readLinesAux_chunk (rest : List Char) :
    ∀ (cs cur : List Char), '\n' ∉ cs →
      readLinesAux (cs ++ '\n' :: rest) cur =
        String.mk (cur.reverse ++ cs) :: readLinesAux rest [] := by
  intro cs
  induction cs with
  | nil =>
    intro cur _
    simp [readLinesAux]
  | cons c cs2 ih =>
    intro cur h
    have hc : ¬(c = '\n') := fun hh => h (by simp [hh])
    simp only [List.cons_append, readLinesAux, if_neg hc]
    show readLinesAux (cs2 ++ '\n' :: rest) (c :: cur) =
      String.mk (cur.reverse ++ c :: cs2) :: readLinesAux rest []
    rw [ih (c :: cur) (fun hh => h (List.mem_cons_of_mem _ hh))]
    simp

/-- Helper: reading back a file written as newline-terminated urls recovers
exactly the urls, when none of them contains a newline itself. -/
theorem readLines_flatten (urls : List String) (h : ∀ u ∈ urls, '\n' ∉ u.data) :
    readLines ((urls.map (fun u => u.data ++ ['\n'])).flatten) = urls := by
  induction urls with
  | nil => rfl
  | cons u rest ih =>
    have h1 : '\n' ∉ u.data := h u (List.mem_cons_self u rest)
    have h2 : ∀ v ∈ rest, '\n' ∉ v.data := fun v hv => h v (List.mem_cons_of_mem _ hv)
    show readLinesAux (((u.data ++ ['\n']) :: rest.map (fun v => v.data ++ ['\n'])).flatten) [] =
      u :: rest
    rw [List.flatten_cons, List.append_assoc, List.singleton_append,
      readLinesAux_chunk _ u.data [] h1]
    simp only [List.reverse_nil, List.nil_append]
    exact congrArg₂ List.cons rfl (ih h2)

/-- Helper: stripping is the identity on already-stripped urls. -/
theorem map_pyStrip_id (urls : List String) (h : ∀ u ∈ urls, pyStrip u = u) :
    urls.map pyStrip = urls := by
  induction urls with
  | nil => rfl
  | cons u rest ih =>
    simp only [List.map_cons]
    rw [h u (List.mem_cons_self u rest), ih (fun v hv => h v (List.mem_cons_of_mem _ hv))]

/-- Helper: the file that `save_history` creates matches the load glob. -/
theorem matchesLoadGlob_new (src now : String) :
    matchesLoadGlob src (src ++ "_urls-" ++ now ++ ".txt") = true := by
  unfold matchesLoadGlob globMatch
  have hlit : ("_urls-" : String).data = ("_urls" : String).data ++ ['-'] := by decide
  have hdata : (src ++ "_urls-" ++ now ++ ".txt").data =
      (src ++ "_urls").data ++ ('-' :: (now.data ++ (".txt" : String).data)) := by
    simp [String.data_append, hlit, List.append_assoc]
  have hdata2 : (src ++ "_urls-" ++ now ++ ".txt").data =
      (src ++ "_urls-" ++ now).data ++ (".txt" : String).data := by
    simp [String.data_append]
  have hb : beginsWith (src ++ "_urls").data (src ++ "_urls-" ++ now ++ ".txt").data = true := by
    rw [hdata]; exact beginsWith_append_self _ _
  have hf : finishesWith (".txt" : String).data (src ++ "_urls-" ++ now ++ ".txt").data = true := by
    unfold finishesWith
    rw [hdata2, List.reverse_append]
    exact beginsWith_append_self _ _
  have hlen : (src ++ "_urls").length + 4 ≤ (src ++ "_urls-" ++ now ++ ".txt").length := by
    have e1 : ("_urls" : String).length = 5 := by decide
    have e2 : ("_urls-" : String).length = 6 := by decide
    have e3 : (".txt" : String).length = 4 := by decide
    simp only [String.length_append, e1, e2, e3]
    omega
  simp only [Bool.and_eq_true, decide_eq_true_eq]
  exact ⟨⟨hb, hf⟩, hlen⟩

/-- C6 (amended): saving a url set and immediately loading it back yields the
same set, for every directory whose load-matching history files all carry the
dash that the backup rotation's glob requires (so the rotation clears them
all), and for every set of urls that contain no newline and are unchanged by
`strip` — the counterexample `save_load_break` shows the claim is false for
arbitrary strings, since urls are written newline-separated and read back
stripped. -/
theorem save_load_roundtrip (src now : String) (dir : List HFile) (urls : List String)
    (hdir : ∀ f ∈ dir, matchesLoadGlob src f.name = true → matchesSaveGlob src f.name = true)
    (hurls : ∀ u ∈ urls, '\n' ∉ u.data ∧ pyStrip u = u) :
    ∀ u, (u ∈ load_history src (save_history src now dir urls).1 []) ↔ u ∈ urls := by
  intro u
  have hkept : ((dir.filter fun f => !(matchesSaveGlob src f.name)).filter
      (fun f => matchesLoadGlob src f.name)) = [] := by
    rw [List.filter_eq_nil_iff]
    intro f hf
    rw [List.mem_filter] at hf
    intro hl
    have hs := hdir f hf.1 hl
    simp [hs] at hf
  have hstep : (save_history src now dir urls).1 =
      (dir.filter fun f => !(matchesSaveGlob src f.name)) ++
        [⟨src ++ "_urls-" ++ now ++ ".txt",
          ((urls.map (fun v => v.data ++ ['\n'])).flatten)⟩] := rfl
  rw [hstep]
  unfold load_history
  rw [List.filter_append, hkept, List.nil_append]
  simp only [List.filter_cons, List.filter_nil, matchesLoadGlob_new, if_pos]
  simp only [List.getLast?_singleton]
  show u ∈ [] ++ (readLines ((urls.map (fun v => v.data ++ ['\n'])).flatten)).map pyStrip ↔
    u ∈ urls
  rw [readLines_flatten urls (fun v hv => (hurls v hv).1),
    map_pyStrip_id urls (fun v hv => (hurls v hv).2), List.nil_append]

/-- C6 witness: the amended round trip at a concrete source, directory and
url set. -/
theorem save_load_roundtrip_witness :
    "https://pbs.twimg.com/media/ABC123.jpg:orig" ∈
      load_history "likes" (save_history "likes" "2024-01-01-000000"
        [⟨"likes_urls-2020-01-01-000000.txt", "x\n".data⟩]
        ["https://pbs.twimg.com/media/ABC123.jpg:orig"]).1 [] ↔
    "https://pbs.twimg.com/media/ABC123.jpg:orig" ∈
      ["https://pbs.twimg.com/media/ABC123.jpg:orig"] :=
  save_load_roundtrip "likes" "2024-01-01-000000"
    [⟨"likes_urls-2020-01-01-000000.txt", "x\n".data⟩]
    ["https://pbs.twimg.com/media/ABC123.jpg:orig"]
    (by decide) (by decide) "https://pbs.twimg.com/media/ABC123.jpg:orig"

/-- C6 counterexample: for the singleton set of the url "b\na" (a string with
an embedded newline) the round trip fails: `save` writes it as two lines and
`load` reads back the two strings "b" and "a", so the loaded set does not
contain the original element.  This refutes the claim for arbitrary sets of
strings. -/
theorem save_load_break :
    ¬ (("b\na" ∈ load_history "likes"
          (save_history "likes" "2024-01-01-000000" [] ["b\na"]).1 []) ↔
        "b\na" ∈ ["b\na"]) := by decide

/-- C7: evaluation at the failing input.  On a directory whose enumeration
order lists the 2022-named history file before the 2021-named one,
`load_history` returns the lines of the 2021 file ("old") — the LAST glob
match in enumeration order — even though the 2022 name is strictly greater
in the lexical order its embedded timestamp defines.  The code's own comment
says "Get latest history file", but `glob.glob(...)[-1]` without sorting
does not implement that. -/
theorem glob_picks_enumeration_last :
    load_history "likes" unsortedDir [] = ["old"] ∧
    "likes_urls-2021-01-01-000000.txt" < "likes_urls-2022-01-01-000000.txt" :=
  ⟨by decide, by rw [String.lt_iff_toList_lt]; decide⟩

end TMD
